import Mathlib

/-!
Verification development for the `cad_viewer` repository.

The file embeds, as Lean definitions, the two core subsystems of the
viewer:

* the scene compiler (`src/gpu_data/gpu_data.rs`): flattening of the
  transform hierarchy into a list of GPU shapes and shape instances;
* the bounding volume (`src/viewer/bbox.rs`) and the orbit camera
  (`src/viewer/camera.rs`, `src/viewer/camera_data.rs`).

Modelling conventions:

* 4x4 transform matrices are treated as an opaque type `T` with a
  multiplication and an identity element (the scene compiler only ever
  multiplies them and starts from the identity);
* `f32` scalars of the camera/bbox code are modelled by an arbitrary
  linear ordered field `K`; the external math routines `sqrt`, `ln`,
  `exp`, `cos`, `sin` are explicit function parameters, with the facts
  needed about them stated as hypotheses (which `ℝ` satisfies);
* the opaque GPU mesh-resource layer (`GPUMesh::new`, which returns
  `Result`) is an explicit fallible function parameter `cm`;
* a separate small model with IEEE special values (`F32x`) is used for
  the one claim about `f32` overflow behaviour of the empty bbox
  sentinel.
-/

set_option maxHeartbeats 1000000

namespace CadViewer

/-! ## Scene data model (external `cad_import` structures, as consumed) -/

/-- One part of a shape: a mesh payload and a material reference.
Both are opaque to the scene compiler; we model them as handles. -/
structure Part where
  mesh : Nat
  material : Nat
deriving DecidableEq, Repr

/-- `cad_import::structure::Shape`: a stable identity plus parts. -/
structure Shape where
  id : Nat
  parts : List Part
deriving DecidableEq, Repr

/-- `cad_import::structure::Node`: optional local transform, shape
references, ordered children. `T` is the (opaque) 4x4 matrix type. -/
inductive Node (T : Type) : Type where
  | mk : Option T → List Shape → List (Node T) → Node T

/-- The node's optional local transform (`Node::get_transform`). -/
def Node.getTransform {T : Type} : Node T → Option T
  | .mk t _ _ => t

/-- The node's shape references (`Node::get_shapes`). -/
def Node.getShapes {T : Type} : Node T → List Shape
  | .mk _ s _ => s

/-- The node's children (`Node::get_children`). -/
def Node.getChildren {T : Type} : Node T → List (Node T)
  | .mk _ _ c => c

/-! ## GPU-side data (`src/gpu_data/gpu_data.rs`) -/

/-- `GPUMeshWithMaterial`: material reference plus GPU mesh handle. -/
structure GPUMeshWithMaterial where
  material : Nat
  mesh : Nat
deriving DecidableEq, Repr

/-- `GPUShape`: the compiled shape, one GPU part per CPU part. -/
structure GPUShape where
  parts : List GPUMeshWithMaterial
deriving DecidableEq, Repr

/-- `GPUShapeInstance`: world transform plus index into the shape list. -/
structure GPUShapeInstance (T : Type) where
  transform : T
  shape_index : Nat
deriving DecidableEq

/-- `GPUData`: all data on the GPU. -/
structure GPUData (T : Type) where
  shapes : List GPUShape
  instances : List (GPUShapeInstance T)
deriving DecidableEq

/-- `GPUData::new`. -/
def GPUData.new (T : Type) : GPUData T := { shapes := [], instances := [] }

/-- `TraversalData`: the shape identity → index map used for dedup,
modelled as an association list (`HashMap<ID, usize>` in the source). -/
structure TraversalData where
  shape_map : List (Nat × Nat)
deriving DecidableEq

/-- `TraversalData::new`. -/
def TraversalData.new : TraversalData := { shape_map := [] }

/-- `TraversalContext`: the accumulated transform. -/
structure TraversalContext (T : Type) where
  transform : T

/-- `TraversalContext::new`: the root's own transform if present, else
the identity matrix. -/
def TraversalContext.new {T : Type} [One T] (root : Node T) : TraversalContext T :=
  { transform := match root.getTransform with
      | some t => t
      | none => 1 }

/-- `TraversalContext::derive`: multiply the child's local transform on
the right if the child carries one, else keep the transform. -/
def TraversalContext.derive {T : Type} [Mul T] (tc : TraversalContext T) (node : Node T) :
    TraversalContext T :=
  match node.getTransform with
  | some t => { transform := tc.transform * t }
  | none => tc

/-- `GPUData::create_gpu_shape`: realize every part of the shape through
the mesh-resource layer `cm` (`GPUMesh::new`, which may fail). -/
def createGpuShape (cm : Nat → Except Unit Nat) (shape : Shape) : Except Unit GPUShape := do
  let parts ← shape.parts.mapM fun part => do
    let gpuMesh ← cm part.mesh
    pure { material := part.material, mesh := gpuMesh : GPUMeshWithMaterial }
  pure { parts := parts }

/-- The mutable state threaded through the traversal: the `GPUData`
(`&mut self`) and the `TraversalData`. -/
structure TravState (T : Type) where
  gpu : GPUData T
  td : TraversalData
deriving DecidableEq

/-- `GPUData::get_shape_index`, exactly as in the source: look the id up
in the map; on a hit return the stored index; on a miss take
`shape_map.len()` as the index, create the GPU shape and push it.
Note that the source never inserts the new index into `shape_map`. -/
def getShapeIndex {T : Type} (cm : Nat → Except Unit Nat) (shape : Shape)
    (st : TravState T) : Except Unit (Nat × TravState T) :=
  match st.td.shape_map.lookup shape.id with
  | some index => .ok (index, st)
  | none =>
    let index := st.td.shape_map.length
    match createGpuShape cm shape with
    | .error e => .error e
    | .ok gpuShape =>
      .ok (index, { st with gpu := { st.gpu with shapes := st.gpu.shapes ++ [gpuShape] } })

/-- The body of the first loop of `GPUData::traverse`: for every shape
reference resolve its index and push an instance carrying the
accumulated transform. -/
def pushShapes {T : Type} (cm : Nat → Except Unit Nat) (shapes : List Shape)
    (tc : TraversalContext T) (st : TravState T) : Except Unit (TravState T) :=
  match shapes with
  | [] => .ok st
  | shape :: rest =>
    match getShapeIndex cm shape st with
    | .error e => .error e
    | .ok (shape_index, st₁) =>
      pushShapes cm rest tc
        { st₁ with
          gpu := { st₁.gpu with
            instances := st₁.gpu.instances ++
              [{ transform := tc.transform, shape_index := shape_index }] } }

mutual

/-- `GPUData::traverse`: push instances for the node's shapes, then
recurse into the children with the derived context. -/
def traverse {T : Type} [Mul T] (cm : Nat → Except Unit Nat) (node : Node T)
    (tc : TraversalContext T) (st : TravState T) : Except Unit (TravState T) :=
  match node with
  | .mk _ shapes children =>
    match pushShapes cm shapes tc st with
    | .error e => .error e
    | .ok st₁ => traverseChildren cm children tc st₁

/-- The child loop of `GPUData::traverse`. -/
def traverseChildren {T : Type} [Mul T] (cm : Nat → Except Unit Nat)
    (children : List (Node T)) (tc : TraversalContext T) (st : TravState T) :
    Except Unit (TravState T) :=
  match children with
  | [] => .ok st
  | child :: rest =>
    match traverse cm child (tc.derive child) st with
    | .error e => .error e
    | .ok st₁ => traverseChildren cm rest tc st₁

end

/-- `GPUData::add_cad_data`: traverse from the root with the root
context and a fresh `TraversalData`. -/
def addCadData {T : Type} [Mul T] [One T] (cm : Nat → Except Unit Nat) (root : Node T)
    (gd : GPUData T) : Except Unit (GPUData T) :=
  match traverse cm root (TraversalContext.new root) { gpu := gd, td := TraversalData.new } with
  | .error e => .error e
  | .ok st => .ok st.gpu

/-- Strong induction principle for the nested `Node` inductive: to prove
a property of every node it suffices to prove it for a node assuming it
for all of its children. -/
theorem Node.strongInd {T : Type} {P : Node T → Prop}
    (h : ∀ t s c, (∀ n ∈ c, P n) → P (Node.mk t s c)) : ∀ n, P n
  | .mk t s c => h t s c (fun n hn => Node.strongInd h n)
termination_by n => sizeOf n
decreasing_by
  simp only [Node.mk.sizeOf_spec]
  have := List.sizeOf_lt_of_mem hn
  omega

/-- Invariant I1 of the spec, together with the fact (true of every
reachable state) that the dedup map is empty — the source never inserts
into it. -/
def InvI1 {T : Type} (st : TravState T) : Prop :=
  st.td.shape_map = [] ∧
    ∀ i ∈ st.gpu.instances, i.shape_index < st.gpu.shapes.length

/-- On a state with an empty dedup map, `get_shape_index` always takes
the miss branch: it returns index `0`, keeps the map empty, leaves the
instance list alone and appends exactly one compiled shape. -/
theorem getShapeIndex_ok {T : Type} {cm : Nat → Except Unit Nat} {shape : Shape}
    {st st' : TravState T} {idx : Nat} (hmap : st.td.shape_map = [])
    (h : getShapeIndex cm shape st = .ok (idx, st')) :
    idx = 0 ∧ st'.td.shape_map = [] ∧ st'.gpu.instances = st.gpu.instances ∧
      ∃ g, st'.gpu.shapes = st.gpu.shapes ++ [g] := by
  unfold getShapeIndex at h
  rw [hmap] at h
  simp only [List.lookup_nil] at h
  cases hc : createGpuShape cm shape with
  | error e => rw [hc] at h; exact absurd h (by simp)
  | ok g =>
    rw [hc] at h
    simp only [Except.ok.injEq, Prod.mk.injEq] at h
    obtain ⟨h1, h2⟩ := h
    subst h2
    exact ⟨by simpa [hmap] using h1.symm, hmap, rfl, g, rfl⟩

/-- `get_shape_index` never touches the instance list and only appends
to the shape list (no empty-map assumption needed). -/
theorem getShapeIndex_instances {T : Type} {cm : Nat → Except Unit Nat} {shape : Shape}
    {st st' : TravState T} {idx : Nat}
    (h : getShapeIndex cm shape st = .ok (idx, st')) :
    st'.gpu.instances = st.gpu.instances := by
  unfold getShapeIndex at h
  cases hl : st.td.shape_map.lookup shape.id with
  | some i => rw [hl] at h; simp only [Except.ok.injEq, Prod.mk.injEq] at h
              rw [← h.2]
  | none =>
    rw [hl] at h
    cases hc : createGpuShape cm shape with
    | error e => rw [hc] at h; exact absurd h (by simp)
    | ok g =>
      rw [hc] at h
      simp only [Except.ok.injEq, Prod.mk.injEq] at h
      rw [← h.2]

/-- The shape loop preserves invariant I1. -/
theorem pushShapes_inv {T : Type} {cm : Nat → Except Unit Nat}
    {tc : TraversalContext T} :
    ∀ {shapes : List Shape} {st st' : TravState T},
      pushShapes cm shapes tc st = .ok st' → InvI1 st → InvI1 st'
  | [], st, st', h, hinv => by
      unfold pushShapes at h
      simp only [Except.ok.injEq] at h
      rwa [← h]
  | shape :: rest, st, st', h, hinv => by
      unfold pushShapes at h
      cases hg : getShapeIndex cm shape st with
      | error e => rw [hg] at h; exact absurd h (by simp)
      | ok p =>
        obtain ⟨idx, st₁⟩ := p
        rw [hg] at h
        obtain ⟨hidx, hmap₁, hins₁, g, hsh₁⟩ := getShapeIndex_ok hinv.1 hg
        refine pushShapes_inv h ⟨hmap₁, ?_⟩
        intro i hi
        simp only [List.mem_append, List.mem_singleton] at hi
        cases hi with
        | inl hi =>
          rw [hins₁] at hi
          have := hinv.2 i hi
          rw [hsh₁]
          simp only [List.length_append, List.length_singleton]
          omega
        | inr hi =>
          subst hi
          simp only [hidx, hsh₁, List.length_append, List.length_singleton]
          omega

/-- The shape loop appends one instance per shape reference, each
carrying the accumulated transform of the context. -/
theorem pushShapes_transforms {T : Type} {cm : Nat → Except Unit Nat}
    {tc : TraversalContext T} :
    ∀ {shapes : List Shape} {st st' : TravState T},
      pushShapes cm shapes tc st = .ok st' →
      st'.gpu.instances.map (fun i => i.transform) =
        st.gpu.instances.map (fun i => i.transform) ++
          List.replicate shapes.length tc.transform
  | [], st, st', h => by
      unfold pushShapes at h
      simp only [Except.ok.injEq] at h
      rw [← h]
      simp
  | shape :: rest, st, st', h => by
      unfold pushShapes at h
      cases hg : getShapeIndex cm shape st with
      | error e => rw [hg] at h; exact absurd h (by simp)
      | ok p =>
        obtain ⟨idx, st₁⟩ := p
        rw [hg] at h
        have hins₁ := getShapeIndex_instances hg
        have ih := pushShapes_transforms h
        rw [ih]
        simp only [List.map_append, hins₁, List.length_cons, List.map_cons, List.map_nil]
        rw [List.replicate_succ]
        simp

/-- The child loop preserves any state predicate that each child's
traversal preserves. -/
theorem traverseChildren_pres {T : Type} [Mul T] {cm : Nat → Except Unit Nat}
    {P : TravState T → Prop} :
    ∀ l : List (Node T),
      (∀ n ∈ l, ∀ tc : TraversalContext T, ∀ st st',
        traverse cm n tc st = .ok st' → P st → P st') →
      ∀ tc : TraversalContext T, ∀ st st',
        traverseChildren cm l tc st = .ok st' → P st → P st' := by
  intro l
  induction l with
  | nil =>
    intro _ tc st st' h hp
    unfold traverseChildren at h
    simp only [Except.ok.injEq] at h
    rwa [← h]
  | cons hd tl ihl =>
    intro hmem tc st st' h hp
    unfold traverseChildren at h
    cases ht : traverse cm hd (tc.derive hd) st with
    | error e => rw [ht] at h; exact absurd h (by simp)
    | ok st₂ =>
      rw [ht] at h
      exact ihl (fun n hn => hmem n (List.mem_cons_of_mem _ hn)) tc st₂ st' h
        (hmem hd (List.mem_cons_self _ _) _ _ _ ht hp)

/-- `traverse` preserves invariant I1. -/
theorem traverse_inv {T : Type} [Mul T] (cm : Nat → Except Unit Nat) :
    ∀ node : Node T, ∀ tc : TraversalContext T, ∀ st st',
      traverse cm node tc st = .ok st' → InvI1 st → InvI1 st' := by
  refine Node.strongInd ?_
  intro t s c ih tc st st' h hinv
  unfold traverse at h
  cases hp : pushShapes cm s tc st with
  | error e => rw [hp] at h; exact absurd h (by simp)
  | ok st₁ =>
    rw [hp] at h
    exact traverseChildren_pres c ih tc st₁ st' h (pushShapes_inv hp hinv)

mutual

/-- Modelled from the spec (§4.2, §8 "Transform composition"): the list
of world transforms the instances of a (sub)tree must carry when the
subtree is entered with accumulated transform `t` — one entry per shape
reference of the node, in traversal order, and for every child `T' = T *
C.local_transform` if the child carries a transform, else `T' = T`. -/
def specTransforms {T : Type} [Mul T] (t : T) : Node T → List T
  | .mk _ shapes children => List.replicate shapes.length t ++ specChildTransforms t children

/-- Modelled from the spec: the child loop of `specTransforms`. -/
def specChildTransforms {T : Type} [Mul T] (t : T) : List (Node T) → List T
  | [] => []
  | c :: cs =>
    (match c.getTransform with
     | some lt => specTransforms (t * lt) c
     | none => specTransforms t c) ++ specChildTransforms t cs

end

/-- Equation lemma for `specTransforms`. -/
theorem specTransforms_mk {T : Type} [Mul T] (t : T) (o : Option T) (s : List Shape)
    (c : List (Node T)) :
    specTransforms t (Node.mk o s c) = List.replicate s.length t ++ specChildTransforms t c :=
  rfl

/-- Equation lemma for `specChildTransforms`, nil case. -/
theorem specChildTransforms_nil {T : Type} [Mul T] (t : T) :
    specChildTransforms t ([] : List (Node T)) = [] := rfl

/-- Equation lemma for `specChildTransforms`, cons case. -/
theorem specChildTransforms_cons {T : Type} [Mul T] (t : T) (c : Node T) (cs : List (Node T)) :
    specChildTransforms t (c :: cs) =
      (match c.getTransform with
       | some lt => specTransforms (t * lt) c
       | none => specTransforms t c) ++ specChildTransforms t cs := rfl

/-- `TraversalContext.derive` computes exactly the spec's child rule. -/
theorem derive_transform {T : Type} [Mul T] (tc : TraversalContext T) (c : Node T) :
    (tc.derive c).transform =
      match c.getTransform with
      | some lt => tc.transform * lt
      | none => tc.transform := by
  unfold TraversalContext.derive
  cases c.getTransform <;> rfl

/-- `traverse` appends exactly the spec-mandated transform list. -/
theorem traverse_transforms {T : Type} [Mul T] (cm : Nat → Except Unit Nat) :
    ∀ node : Node T, ∀ tc : TraversalContext T, ∀ st st',
      traverse cm node tc st = .ok st' →
      st'.gpu.instances.map (fun i => i.transform) =
        st.gpu.instances.map (fun i => i.transform) ++ specTransforms tc.transform node := by
  refine Node.strongInd ?_
  intro t s c ih tc st st' h
  unfold traverse at h
  cases hp : pushShapes cm s tc st with
  | error e => rw [hp] at h; exact absurd h (by simp)
  | ok st₁ =>
    rw [hp] at h
    have hbase := pushShapes_transforms hp
    rw [specTransforms_mk]
    have hrec : ∀ l : List (Node T),
        (∀ n ∈ l, ∀ tc : TraversalContext T, ∀ st st',
          traverse cm n tc st = .ok st' →
          st'.gpu.instances.map (fun i => i.transform) =
            st.gpu.instances.map (fun i => i.transform) ++ specTransforms tc.transform n) →
        ∀ tc : TraversalContext T, ∀ st st',
          traverseChildren cm l tc st = .ok st' →
          st'.gpu.instances.map (fun i => i.transform) =
            st.gpu.instances.map (fun i => i.transform) ++ specChildTransforms tc.transform l := by
      intro l
      induction l with
      | nil =>
        intro _ tc st st' h
        unfold traverseChildren at h
        simp only [Except.ok.injEq] at h
        rw [← h, specChildTransforms_nil]
        simp
      | cons hd tl ihl =>
        intro hmem tc st st' h
        unfold traverseChildren at h
        cases ht : traverse cm hd (tc.derive hd) st with
        | error e => rw [ht] at h; exact absurd h (by simp)
        | ok st₂ =>
          rw [ht] at h
          have h1 := hmem hd (List.mem_cons_self _ _) _ _ _ ht
          have h2 := ihl (fun n hn => hmem n (List.mem_cons_of_mem _ hn)) tc st₂ st' h
          rw [h2, h1, derive_transform, specChildTransforms_cons]
          cases hht : hd.getTransform <;> simp [hht, List.append_assoc]
    rw [hrec c ih tc st₁ st' h, hbase, List.append_assoc]

/-! ## Concrete scenes used to evaluate the compiler claims -/

/-- A shape with identity `7` and one part, shared by several nodes. -/
def sharedShape : Shape := { id := 7, parts := [{ mesh := 0, material := 0 }] }

/-- A mesh-resource layer that always succeeds. -/
def cmOk : Nat → Except Unit Nat := fun m => .ok m

/-- Two distinct nodes at different tree positions referencing the same
shape identity. -/
def dedupScene : Node Nat :=
  .mk none [] [.mk none [sharedShape] [], .mk none [sharedShape] []]

/-- A root with transform `3`, one shape reference, and two children:
one with transform `5` and one without (transforms are modelled by
natural numbers under multiplication). -/
def nestedScene : Node Nat :=
  .mk (some 3) [sharedShape]
    [.mk (some 5) [sharedShape] [], .mk none [sharedShape] []]

/-- C1 (code bug evaluation): compiling a scene in which two distinct
nodes reference the same shape identity creates TWO compiled shapes,
not one — `get_shape_index` never records the new index in `shape_map`,
so every reference misses the map and recompiles; moreover the returned
index is always `shape_map.len() = 0`, so both instances carry shape
index 0 while the shape list has two entries. -/
theorem dedup_two_references_two_shapes :
    (addCadData cmOk dedupScene (GPUData.new Nat)).toOption.map
      (fun d => (d.shapes.length, d.instances.map (fun i => i.shape_index))) =
    some (2, [0, 0]) := by decide

/-- C4: every instance's shape index is a valid index into the
compiled-shape list — as an invariant preserved by every `traverse`
step (so it holds at every intermediate state), and for the result of
every successful `add_cad_data` from a fresh `GPUData`. -/
theorem instance_indices_valid {T : Type} [Mul T] [One T] (cm : Nat → Except Unit Nat) :
    (∀ node : Node T, ∀ tc : TraversalContext T, ∀ st st',
      traverse cm node tc st = .ok st' → InvI1 st → InvI1 st') ∧
    (∀ root : Node T, ∀ d, addCadData cm root (GPUData.new T) = .ok d →
      ∀ i ∈ d.instances, i.shape_index < d.shapes.length) := by
  refine ⟨traverse_inv cm, ?_⟩
  intro root d h
  unfold addCadData at h
  cases ht : traverse cm root (TraversalContext.new root)
      { gpu := GPUData.new T, td := TraversalData.new } with
  | error e => rw [ht] at h; exact absurd h (by simp)
  | ok st =>
    rw [ht] at h
    simp only [Except.ok.injEq] at h
    have hinv := traverse_inv cm root _ _ _ ht ⟨rfl, by intro i hi; simp [GPUData.new] at hi⟩
    rw [← h]
    exact hinv.2

/-- Witness for C4 at a concrete compiled scene. -/
theorem instance_indices_valid_witness :
    (GPUShapeInstance.mk (1 : Nat) 0).shape_index <
      (GPUData.mk [GPUShape.mk [⟨0, 0⟩], GPUShape.mk [⟨0, 0⟩]]
        [⟨1, 0⟩, ⟨1, 0⟩]).shapes.length :=
  (instance_indices_valid cmOk).2 dedupScene _ rfl ⟨1, 0⟩ (by decide)

/-- C3: the instances appended by `traverse` carry exactly the world
transforms mandated by the spec's composition rule (`T' = T *
C.local_transform` when the child carries a transform, else `T' = T`),
and `add_cad_data` starts from the root's own transform when present,
else from the identity. -/
theorem transform_composition {T : Type} [Mul T] [One T] (cm : Nat → Except Unit Nat) :
    (∀ node : Node T, ∀ tc : TraversalContext T, ∀ st st',
      traverse cm node tc st = .ok st' →
      st'.gpu.instances.map (fun i => i.transform) =
        st.gpu.instances.map (fun i => i.transform) ++ specTransforms tc.transform node) ∧
    (∀ root : Node T, ∀ gd d, addCadData cm root gd = .ok d →
      d.instances.map (fun i => i.transform) =
        gd.instances.map (fun i => i.transform) ++
          specTransforms (match root.getTransform with | some t => t | none => 1) root) := by
  refine ⟨traverse_transforms cm, ?_⟩
  intro root gd d h
  unfold addCadData at h
  cases ht : traverse cm root (TraversalContext.new root)
      { gpu := gd, td := TraversalData.new } with
  | error e => rw [ht] at h; exact absurd h (by simp)
  | ok st =>
    rw [ht] at h
    simp only [Except.ok.injEq] at h
    have := traverse_transforms cm root _ _ _ ht
    rw [← h]
    exact this.trans (by rfl)

/-- Witness for C3: in the nested scene the three instances carry world
transforms `3` (root), `3*5 = 15` (child with transform) and `3` (child
without), in traversal order. -/
theorem transform_composition_witness :
    (GPUData.mk
        [GPUShape.mk [⟨0, 0⟩], GPUShape.mk [⟨0, 0⟩], GPUShape.mk [⟨0, 0⟩]]
        [⟨3, 0⟩, ⟨15, 0⟩, ⟨3, 0⟩]).instances.map (fun i => i.transform) =
      [3, 15, 3] :=
  ((transform_composition cmOk).2 nestedScene (GPUData.new Nat) _ rfl).trans (by decide)

/-! ## 3-vectors and 3x3 matrices (nalgebra `Vec3` / `Mat3`), scalar-generic -/

/-- A `nalgebra_glm::Vec3` over the scalar type `K` (modelling `f32`). -/
structure V3 (K : Type) where
  x : K
  y : K
  z : K
deriving DecidableEq, Repr

/-- A `nalgebra_glm::Mat3` over `K`, stored as its three columns (which
is also nalgebra's column-major layout). -/
structure M3 (K : Type) where
  c0 : V3 K
  c1 : V3 K
  c2 : V3 K
deriving DecidableEq, Repr

/-! ## Bounding volume (`src/viewer/bbox.rs`) -/

/-- `BBox`: axis-aligned bounding volume. -/
structure BBox (K : Type) where
  min : V3 K
  max : V3 K
deriving DecidableEq, Repr

/-- `BBox::is_empty`. -/
def BBox.is_empty {K : Type} [LinearOrder K] (b : BBox K) : Prop :=
  b.min.x > b.max.x ∨ b.min.y > b.max.y ∨ b.min.z > b.max.z

/-- `BBox::extend_pos`: componentwise min/max update with a position. -/
def BBox.extend_pos {K : Type} [LinearOrder K] (b : BBox K) (p : V3 K) : BBox K :=
  { min := ⟨Min.min b.min.x p.x, Min.min b.min.y p.y, Min.min b.min.z p.z⟩
    max := ⟨Max.max b.max.x p.x, Max.max b.max.y p.y, Max.max b.max.z p.z⟩ }

/-- `BBox::extend_bbox`: componentwise union with another volume. -/
def BBox.extend_bbox {K : Type} [LinearOrder K] (b : BBox K) (rhs : BBox K) : BBox K :=
  { min := ⟨Min.min b.min.x rhs.min.x, Min.min b.min.y rhs.min.y, Min.min b.min.z rhs.min.z⟩
    max := ⟨Max.max b.max.x rhs.max.x, Max.max b.max.y rhs.max.y, Max.max b.max.z rhs.max.z⟩ }

/-- `BBox::get_center` = `(min + max) / 2`. -/
def BBox.get_center {K : Type} [LinearOrderedField K] (b : BBox K) : V3 K :=
  ⟨(b.min.x + b.max.x) / 2, (b.min.y + b.max.y) / 2, (b.min.z + b.max.z) / 2⟩

/-- `BBox::get_size` = `max - min`. -/
def BBox.get_size {K : Type} [LinearOrderedField K] (b : BBox K) : V3 K :=
  ⟨b.max.x - b.min.x, b.max.y - b.min.y, b.max.z - b.min.z⟩

/-- One extension call: either `extend_pos` or `extend_bbox`. -/
inductive ExtOp (K : Type) where
  | pos (p : V3 K)
  | box (b : BBox K)
deriving DecidableEq

/-- Apply one extension call. -/
def applyExt {K : Type} [LinearOrder K] (v : BBox K) : ExtOp K → BBox K
  | .pos p => v.extend_pos p
  | .box b => v.extend_bbox b

/-- Apply a sequence of extension calls, in order. -/
def applyExts {K : Type} [LinearOrder K] (v : BBox K) (l : List (ExtOp K)) : BBox K :=
  l.foldl applyExt v

/-- "The volume only grows": every min component does not increase and
every max component does not decrease from `v` to `w`. -/
def BBox.grows {K : Type} [LinearOrder K] (v w : BBox K) : Prop :=
  w.min.x ≤ v.min.x ∧ w.min.y ≤ v.min.y ∧ w.min.z ≤ v.min.z ∧
  v.max.x ≤ w.max.x ∧ v.max.y ≤ w.max.y ∧ v.max.z ≤ w.max.z

theorem BBox.grows_refl {K : Type} [LinearOrder K] (v : BBox K) : v.grows v :=
  ⟨le_refl _, le_refl _, le_refl _, le_refl _, le_refl _, le_refl _⟩

theorem BBox.grows_trans {K : Type} [LinearOrder K] {u v w : BBox K}
    (h₁ : u.grows v) (h₂ : v.grows w) : u.grows w :=
  ⟨le_trans h₂.1 h₁.1, le_trans h₂.2.1 h₁.2.1, le_trans h₂.2.2.1 h₁.2.2.1,
   le_trans h₁.2.2.2.1 h₂.2.2.2.1, le_trans h₁.2.2.2.2.1 h₂.2.2.2.2.1,
   le_trans h₁.2.2.2.2.2 h₂.2.2.2.2.2⟩

/-- A single extension call only grows the volume. -/
theorem applyExt_grows {K : Type} [LinearOrder K] (v : BBox K) (op : ExtOp K) :
    v.grows (applyExt v op) := by
  cases op <;>
    exact ⟨min_le_left _ _, min_le_left _ _, min_le_left _ _,
      le_max_left _ _, le_max_left _ _, le_max_left _ _⟩

/-- Two adjacent extension calls commute. -/
theorem applyExt_comm {K : Type} [LinearOrder K] (v : BBox K) (a b : ExtOp K) :
    applyExt (applyExt v a) b = applyExt (applyExt v b) a := by
  cases a <;> cases b <;>
    simp [applyExt, BBox.extend_pos, BBox.extend_bbox, BBox.mk.injEq, V3.mk.injEq,
      min_right_comm, sup_right_comm]

/-- The result of a sequence of extension calls is invariant under
permutations of the sequence. -/
theorem applyExts_perm {K : Type} [LinearOrder K] {l₁ l₂ : List (ExtOp K)}
    (h : l₁.Perm l₂) : ∀ v : BBox K, applyExts v l₁ = applyExts v l₂ := by
  induction h with
  | nil => intro v; rfl
  | cons x _ ih =>
    intro v
    simp only [applyExts, List.foldl_cons]
    exact ih _
  | swap x y l =>
    intro v
    simp only [applyExts, List.foldl_cons]
    rw [applyExt_comm]
  | trans _ _ ih₁ ih₂ => intro v; exact (ih₁ v).trans (ih₂ v)

/-- C5: extension only grows the volume (over whole call sequences), the
final volume is independent of the order of the calls, and extending
twice with the same point is the same as extending once. -/
theorem bbox_extend_contract {K : Type} [LinearOrder K] :
    (∀ (v : BBox K) (l : List (ExtOp K)), v.grows (applyExts v l)) ∧
    (∀ (v : BBox K) (l₁ l₂ : List (ExtOp K)), l₁.Perm l₂ →
      applyExts v l₁ = applyExts v l₂) ∧
    (∀ (v : BBox K) (p : V3 K), (v.extend_pos p).extend_pos p = v.extend_pos p) := by
  refine ⟨?_, fun v l₁ l₂ h => applyExts_perm h v, ?_⟩
  · intro v l
    induction l generalizing v with
    | nil => exact BBox.grows_refl v
    | cons op rest ih =>
      exact BBox.grows_trans (applyExt_grows v op) (ih (applyExt v op))
  · intro v p
    simp [BBox.extend_pos, min_assoc, max_assoc]

/-- Witness for C5 at concrete rational volumes. -/
theorem bbox_extend_contract_witness :
    (BBox.mk (K := ℚ) ⟨0, 0, 0⟩ ⟨1, 1, 1⟩).grows
      (applyExts ⟨⟨0, 0, 0⟩, ⟨1, 1, 1⟩⟩
        [.pos ⟨2, 2, 2⟩, .box ⟨⟨-1, -1, -1⟩, ⟨0, 0, 0⟩⟩]) ∧
    applyExts (BBox.mk (K := ℚ) ⟨0, 0, 0⟩ ⟨1, 1, 1⟩)
        [.pos ⟨2, 2, 2⟩, .box ⟨⟨-1, -1, -1⟩, ⟨0, 0, 0⟩⟩] =
      applyExts ⟨⟨0, 0, 0⟩, ⟨1, 1, 1⟩⟩
        [.box ⟨⟨-1, -1, -1⟩, ⟨0, 0, 0⟩⟩, .pos ⟨2, 2, 2⟩] ∧
    (BBox.mk (K := ℚ) ⟨0, 0, 0⟩ ⟨1, 1, 1⟩).extend_pos ⟨2, 3, 4⟩ =
      ((BBox.mk ⟨0, 0, 0⟩ ⟨1, 1, 1⟩).extend_pos ⟨2, 3, 4⟩).extend_pos ⟨2, 3, 4⟩ :=
  ⟨bbox_extend_contract.1 _ _,
   bbox_extend_contract.2.1 _ _ _ (by decide),
   (bbox_extend_contract.2.2 _ _).symm⟩

/-! ## Vector and matrix operations used by the camera

The scalar type `K` stands for `f32`; the external libm routines are
explicit function parameters `sq` (sqrt), `lg` (ln), `ex` (exp), `co`
(cos), `si` (sin). -/

/-- Componentwise vector addition. -/
def addV {K : Type} [LinearOrderedField K] (a b : V3 K) : V3 K :=
  ⟨a.x + b.x, a.y + b.y, a.z + b.z⟩

/-- Componentwise vector subtraction. -/
def subV {K : Type} [LinearOrderedField K] (a b : V3 K) : V3 K :=
  ⟨a.x - b.x, a.y - b.y, a.z - b.z⟩

/-- Vector times scalar (`v * s` in nalgebra). -/
def smulV {K : Type} [LinearOrderedField K] (a : V3 K) (s : K) : V3 K :=
  ⟨a.x * s, a.y * s, a.z * s⟩

/-- Euclidean dot product. -/
def dotV {K : Type} [LinearOrderedField K] (a b : V3 K) : K :=
  a.x * b.x + a.y * b.y + a.z * b.z

/-- `glm::length`: square root of the dot square. -/
def lengthV {K : Type} [LinearOrderedField K] (sq : K → K) (v : V3 K) : K :=
  sq (dotV v v)

/-- `glm::normalize`: divide the vector by its length. -/
def normalizeV {K : Type} [LinearOrderedField K] (sq : K → K) (v : V3 K) : V3 K :=
  let n := lengthV sq v
  ⟨v.x / n, v.y / n, v.z / n⟩

/-- Matrix times (column) vector. -/
def mulMV {K : Type} [LinearOrderedField K] (m : M3 K) (v : V3 K) : V3 K :=
  ⟨m.c0.x * v.x + m.c1.x * v.y + m.c2.x * v.z,
   m.c0.y * v.x + m.c1.y * v.y + m.c2.y * v.z,
   m.c0.z * v.x + m.c1.z * v.y + m.c2.z * v.z⟩

/-- Matrix product, columnwise. -/
def mulMM {K : Type} [LinearOrderedField K] (a b : M3 K) : M3 K :=
  ⟨mulMV a b.c0, mulMV a b.c1, mulMV a b.c2⟩

/-- The identity 3x3 matrix. -/
def idM (K : Type) [LinearOrderedField K] : M3 K :=
  ⟨⟨1, 0, 0⟩, ⟨0, 1, 0⟩, ⟨0, 0, 1⟩⟩

/-- The axis-angle rotation matrix of nalgebra's
`Rotation3::from_axis_angle` for a unit axis `u`, cosine `c` and sine
`s` (the Rodrigues formula, written entrywise exactly as in nalgebra). -/
def rodrigues {K : Type} [LinearOrderedField K] (c s : K) (u : V3 K) : M3 K :=
  ⟨⟨u.x * u.x + (1 - u.x * u.x) * c,
    u.x * u.y * (1 - c) + u.z * s,
    u.x * u.z * (1 - c) - u.y * s⟩,
   ⟨u.x * u.y * (1 - c) - u.z * s,
    u.y * u.y + (1 - u.y * u.y) * c,
    u.y * u.z * (1 - c) + u.x * s⟩,
   ⟨u.x * u.z * (1 - c) + u.y * s,
    u.y * u.z * (1 - c) - u.x * s,
    u.z * u.z + (1 - u.z * u.z) * c⟩⟩

/-- `nalgebra_glm::rotation(angle, v)`: normalize the axis
(`Unit::new_normalize`) and apply the axis-angle formula. The source
receives this as a homogeneous `Mat4`, multiplies two of them and maps
back with `mat4_to_mat3`; since those `Mat4`s are block matrices with
trivial translation part, the composition equals the product of the 3x3
blocks, and the embedding stays at 3x3. -/
def rotationM {K : Type} [LinearOrderedField K] (co si sq : K → K) (angle : K)
    (v : V3 K) : M3 K :=
  rodrigues (co angle) (si angle) (normalizeV sq v)

/-! ## Camera state (`src/viewer/camera_data.rs`, `src/viewer/camera.rs`) -/

/-- `CameraData`. -/
structure CameraData (K : Type) where
  center : V3 K
  cam_axis : M3 K
  radius : K
  window_size : Nat × Nat
  scene_center : V3 K
  scene_radius : K
deriving DecidableEq

/-- `CameraData::new`. -/
def CameraData.new (K : Type) [LinearOrderedField K] : CameraData K :=
  { center := ⟨0, 0, 0⟩
    cam_axis := idM K
    radius := 0
    window_size := (100, 100)
    scene_center := ⟨0, 0, 0⟩
    scene_radius := 10 }

/-- `CameraData::set_scene`: fails when the radius is not strictly
positive, otherwise stores scene center and radius. -/
def CameraData.set_scene {K : Type} [LinearOrderedField K] (cd : CameraData K)
    (center : V3 K) (radius : K) : Except String (CameraData K) :=
  if radius ≤ 0 then .error "Scene radius must be positive!!!"
  else .ok { cd with scene_center := center, scene_radius := radius }

/-- `CameraData::set_rotated_cam_axis`: rotate the three columns of
`axis` by `rot_mat` and re-orthonormalize by Gram-Schmidt exactly as the
source does (the second and third columns subtract projections of the
successively updated vectors). -/
def CameraData.set_rotated_cam_axis {K : Type} [LinearOrderedField K] (cd : CameraData K)
    (sq : K → K) (axis : M3 K) (rot_mat : M3 K) : CameraData K :=
  let c0 := normalizeV sq (mulMV rot_mat axis.c0)
  let c1a := mulMV rot_mat axis.c1
  let c1b := subV c1a (smulV c0 (dotV c1a c0))
  let c1 := normalizeV sq c1b
  let c2a := mulMV rot_mat axis.c2
  let c2b := subV c2a (smulV c0 (dotV c2a c0))
  let c2c := subV c2b (smulV c1 (dotV c2b c1))
  let c2 := normalizeV sq c2c
  { cd with cam_axis := ⟨c0, c1, c2⟩ }

/-- `Mode` (`camera.rs`). -/
inductive Mode where
  | nothing
  | zoom
  | move
  | rotate
deriving DecidableEq

/-- `glutin::event::MouseButton`, as far as the camera distinguishes. -/
inductive MouseButton where
  | left
  | middle
  | right
  | other
deriving DecidableEq

/-- `Camera`. -/
structure Camera (K : Type) where
  data : CameraData K
  mode : Mode
  save_cursor : K × K
  saved_data : CameraData K
deriving DecidableEq

/-- `Camera::new`. -/
def Camera.new (K : Type) [LinearOrderedField K] : Camera K :=
  { data := CameraData.new K
    mode := .nothing
    save_cursor := (0, 0)
    saved_data := CameraData.new K }

/-- `Camera::modify`: the per-mode pointer-drag math, exactly as in the
source (`2.5` is written `5/2`, `2.0` is `2`). -/
def Camera.modify {K : Type} [LinearOrderedField K] (co si sq ex : K → K)
    (c : Camera K) (newx newy : K) : Camera K :=
  let xdrift_f := (newx - c.save_cursor.1) / ((c.data.window_size.1 : K))
  let ydrift_f := (newy - c.save_cursor.2) / ((c.data.window_size.2 : K))
  match c.mode with
  | .zoom =>
    let ydiff := ydrift_f * 2
    let new_radius := c.saved_data.radius + ydiff
    { c with data := { c.data with radius := new_radius } }
  | .move =>
    let cam_axis := c.data.cam_axis
    let xaxis := cam_axis.c0
    let yaxis := cam_axis.c1
    let factor := ex c.data.radius
    let xdrift := -xdrift_f * factor
    let ydrift := ydrift_f * factor
    let new_center := addV (addV c.saved_data.center (smulV xaxis xdrift)) (smulV yaxis ydrift)
    { c with data := { c.data with center := new_center } }
  | .rotate =>
    let xdrift := xdrift_f
    let ydrift := ydrift_f
    let cam_axis := c.saved_data.cam_axis
    let xrot_mat := rotationM co si sq (-xdrift * (5 / 2)) cam_axis.c1
    let yrot_mat := rotationM co si sq (-ydrift * (5 / 2)) cam_axis.c0
    let rot_mat := mulMM yrot_mat xrot_mat
    { c with data := c.data.set_rotated_cam_axis sq c.saved_data.cam_axis rot_mat }
  | .nothing => c

/-- `Camera::update_mouse_button`: on press snapshot cursor and state
and enter the button's mode (other buttons leave the mode unchanged);
on release apply a final `modify` and return to `Nothing`. -/
def Camera.update_mouse_button {K : Type} [LinearOrderedField K] (co si sq ex : K → K)
    (c : Camera K) (x y : K) (btn : MouseButton) (pressed : Bool) : Camera K :=
  if pressed then
    let c := { c with save_cursor := (x, y), saved_data := c.data }
    match btn with
    | .right => { c with mode := .zoom }
    | .middle => { c with mode := .move }
    | .left => { c with mode := .rotate }
    | .other => c
  else
    let c := c.modify co si sq ex x y
    { c with mode := .nothing }

/-- `Camera::set_radius`: stores the natural logarithm of the argument. -/
def Camera.set_radius {K : Type} [LinearOrderedField K] (lg : K → K)
    (c : Camera K) (radius : K) : Camera K :=
  { c with data := { c.data with radius := lg radius } }

/-- `Camera::focus`, with the source's mutation order: first set the
radius from `length(size) * 1.5`, then the center, then attempt
`set_scene` (whose failure propagates, leaving the earlier mutations in
place). The pair returned models (`Result`, state of `&mut self`). -/
def Camera.focus {K : Type} [LinearOrderedField K] (sq lg : K → K)
    (c : Camera K) (volume : BBox K) : Except String Unit × Camera K :=
  let center := volume.get_center
  let size := volume.get_size
  let box_size := lengthV sq size
  let c := c.set_radius lg (box_size * (3 / 2))
  let c := { c with data := { c.data with center := center } }
  let scene_center := volume.get_center
  let scene_radius := lengthV sq volume.get_size / 2
  match c.data.set_scene scene_center scene_radius with
  | .error e => (.error e, c)
  | .ok d => (.ok (), { c with data := d })

/-! ## Claim C2: `focus` on a size-zero volume -/

/-- C2 (amended): focusing on a single-point volume (size `0`, hence
scene radius `0`) does return an error, and leaves `scene_center` and
`scene_radius` untouched — but `radius` and `center` have already been
mutated when the error is raised: `radius` becomes `ln 0` and `center`
becomes the volume's center. -/
theorem focus_single_point_error_after_mutation {K : Type} [LinearOrderedField K]
    (sq lg : K → K) (hsq0 : sq 0 = 0) (cam : Camera K) (p : V3 K) :
    (cam.focus sq lg ⟨p, p⟩).1.isOk = false ∧
    (cam.focus sq lg ⟨p, p⟩).2.data.scene_center = cam.data.scene_center ∧
    (cam.focus sq lg ⟨p, p⟩).2.data.scene_radius = cam.data.scene_radius ∧
    (cam.focus sq lg ⟨p, p⟩).2.data.center = p ∧
    (cam.focus sq lg ⟨p, p⟩).2.data.radius = lg 0 := by
  have hsize : BBox.get_size (K := K) ⟨p, p⟩ = ⟨0, 0, 0⟩ := by
    simp [BBox.get_size]
  have hdot : dotV (V3.mk (0 : K) 0 0) ⟨0, 0, 0⟩ = 0 := by
    simp [dotV]
  have hcen : BBox.get_center (K := K) ⟨p, p⟩ = p := by
    cases p with
    | mk a b c =>
      simp only [BBox.get_center, V3.mk.injEq]
      refine ⟨?_, ?_, ?_⟩ <;> ring
  unfold Camera.focus
  rw [hsize, hcen]
  simp only [lengthV, hdot, hsq0]
  rw [show (0 : K) / 2 = 0 by ring]
  unfold CameraData.set_scene
  rw [if_pos le_rfl]
  refine ⟨rfl, rfl, rfl, rfl, ?_⟩
  simp [Camera.set_radius]

/-- Witness for C2 (amended) over the rationals with `sqrt` modelled by
the identity on `0` and `ln` by a constant. -/
theorem focus_single_point_error_after_mutation_witness :
    ((Camera.new ℚ).focus id (fun _ => 0) ⟨⟨1, 2, 3⟩, ⟨1, 2, 3⟩⟩).1.isOk = false ∧
    ((Camera.new ℚ).focus id (fun _ => 0) ⟨⟨1, 2, 3⟩, ⟨1, 2, 3⟩⟩).2.data.scene_center =
      (Camera.new ℚ).data.scene_center ∧
    ((Camera.new ℚ).focus id (fun _ => 0) ⟨⟨1, 2, 3⟩, ⟨1, 2, 3⟩⟩).2.data.scene_radius =
      (Camera.new ℚ).data.scene_radius ∧
    ((Camera.new ℚ).focus id (fun _ => 0) ⟨⟨1, 2, 3⟩, ⟨1, 2, 3⟩⟩).2.data.center =
      ⟨1, 2, 3⟩ ∧
    ((Camera.new ℚ).focus id (fun _ => 0) ⟨⟨1, 2, 3⟩, ⟨1, 2, 3⟩⟩).2.data.radius =
      (fun _ : ℚ => (0 : ℚ)) 0 :=
  focus_single_point_error_after_mutation id (fun _ => 0) rfl (Camera.new ℚ) ⟨1, 2, 3⟩

/-- Counterexample to C2 as stated: on a single-point volume the call
does fail, but the camera center HAS been mutated by the time the error
is returned (here from the origin to `(1,2,3)`), so "every field is
exactly as it was before the call" is false. The value of `ln` is
irrelevant to this; `sqrt` is only applied to `0`, where the model
agrees with `f32`. -/
theorem focus_single_point_mutates_counterexample :
    ((Camera.new ℚ).focus id (fun _ => 0) ⟨⟨1, 2, 3⟩, ⟨1, 2, 3⟩⟩).1.isOk = false ∧
    ((Camera.new ℚ).focus id (fun _ => 0) ⟨⟨1, 2, 3⟩, ⟨1, 2, 3⟩⟩).2.data.center ≠
      (Camera.new ℚ).data.center := by
  refine ⟨?_, ?_⟩ <;>
    simp [Camera.focus, Camera.set_radius, CameraData.set_scene, BBox.get_center,
      BBox.get_size, lengthV, dotV, Camera.new, CameraData.new, idM, Except.isOk, Except.toBool,
      V3.mk.injEq]

/-! ## Claim C6: camera state text encoding -/

/-- The nine entries of `Mat3::as_slice()`, in nalgebra's column-major
order. -/
structure Axis9 (K : Type) where
  a0 : K
  a1 : K
  a2 : K
  a3 : K
  a4 : K
  a5 : K
  a6 : K
  a7 : K
  a8 : K
deriving DecidableEq, Repr

/-- `SerializedCameraData`: the record serde serializes. -/
structure SerializedCameraData (K : Type) where
  center : V3 K
  cam_axis : Axis9 K
  radius : K
deriving DecidableEq, Repr

/-- The record `CameraData::to_string` builds before encoding: center
components, `cam_axis.as_slice()` (column-major) and the radius. -/
def CameraData.toSerialized {K : Type} (cd : CameraData K) : SerializedCameraData K :=
  { center := cd.center
    cam_axis := ⟨cd.cam_axis.c0.x, cd.cam_axis.c0.y, cd.cam_axis.c0.z,
                 cd.cam_axis.c1.x, cd.cam_axis.c1.y, cd.cam_axis.c1.z,
                 cd.cam_axis.c2.x, cd.cam_axis.c2.y, cd.cam_axis.c2.z⟩
    radius := cd.radius }

/-- `CameraData::to_string`, with the external serde_json encoder as a
parameter `enc` (the wire type `σ` abstracts the JSON string). -/
def CameraData.encodeString {K σ : Type} (enc : SerializedCameraData K → σ)
    (cd : CameraData K) : σ :=
  enc cd.toSerialized

/-- `CameraData::set_from_string`, with the external serde_json decoder
as a parameter `dec`: on parse failure the error propagates; on success
radius, center and cam_axis (filled column-major by `copy_from_slice`)
are overwritten and the remaining fields are untouched. -/
def CameraData.set_from_string {K σ : Type} (dec : σ → Option (SerializedCameraData K))
    (s : σ) (cd : CameraData K) : Except Unit (CameraData K) :=
  match dec s with
  | none => .error ()
  | some r =>
    .ok { cd with
      radius := r.radius
      center := r.center
      cam_axis := ⟨⟨r.cam_axis.a0, r.cam_axis.a1, r.cam_axis.a2⟩,
                   ⟨r.cam_axis.a3, r.cam_axis.a4, r.cam_axis.a5⟩,
                   ⟨r.cam_axis.a6, r.cam_axis.a7, r.cam_axis.a8⟩⟩ }

/-- C6: for every codec that round-trips the serialized record (the
contract of serde_json for finite floats), encoding a camera state and
decoding into any camera state recovers radius, center and axis exactly
and leaves the target's other fields alone. -/
theorem camera_state_roundtrip {K σ : Type} (enc : SerializedCameraData K → σ)
    (dec : σ → Option (SerializedCameraData K)) (h : ∀ r, dec (enc r) = some r)
    (cd cd₂ : CameraData K) :
    cd₂.set_from_string dec (cd.encodeString enc) =
      .ok { cd₂ with radius := cd.radius, center := cd.center, cam_axis := cd.cam_axis } := by
  unfold CameraData.set_from_string CameraData.encodeString
  rw [h]
  obtain ⟨cen, ⟨⟨a, b, c⟩, ⟨d, e, f⟩, ⟨g, i, j⟩⟩, r, w, sc, sr⟩ := cd
  rfl

/-- Witness for C6: the identity codec on the record type, a camera with
center `(1,2,3)`, radius `42` and a permuted axis, decoded into a fresh
camera. -/
theorem camera_state_roundtrip_witness :
    CameraData.set_from_string (K := ℚ) some
      (CameraData.encodeString id
        { center := ⟨1, 2, 3⟩
          cam_axis := ⟨⟨0, 0, 1⟩, ⟨1, 0, 0⟩, ⟨0, 1, 0⟩⟩
          radius := 42
          window_size := (100, 100)
          scene_center := ⟨0, 0, 0⟩
          scene_radius := 10 })
      (CameraData.new ℚ) =
    .ok { CameraData.new ℚ with
      radius := 42
      center := ⟨1, 2, 3⟩
      cam_axis := ⟨⟨0, 0, 1⟩, ⟨1, 0, 0⟩, ⟨0, 1, 0⟩⟩ } :=
  camera_state_roundtrip id some (fun _ => rfl) _ _

/-! ## Rotation and Gram-Schmidt lemmas -/

theorem dotV_comm {K : Type} [LinearOrderedField K] (a b : V3 K) :
    dotV a b = dotV b a := by
  unfold dotV; ring

theorem smulV_zero {K : Type} [LinearOrderedField K] (v : V3 K) :
    smulV v 0 = ⟨0, 0, 0⟩ := by
  unfold smulV; simp

theorem subV_zero {K : Type} [LinearOrderedField K] (v : V3 K) :
    subV v ⟨0, 0, 0⟩ = v := by
  unfold subV; simp

theorem addV_zero {K : Type} [LinearOrderedField K] (v : V3 K) :
    addV v ⟨0, 0, 0⟩ = v := by
  unfold addV; simp

theorem mulMV_idM {K : Type} [LinearOrderedField K] (v : V3 K) :
    mulMV (idM K) v = v := by
  unfold mulMV idM; simp

theorem mulMM_idM {K : Type} [LinearOrderedField K] (m : M3 K) :
    mulMM (idM K) m = m := by
  unfold mulMM
  rw [mulMV_idM, mulMV_idM, mulMV_idM]

/-- The axis-angle matrix at cosine `1` and sine `0` is the identity,
whatever the axis. -/
theorem rodrigues_one_zero {K : Type} [LinearOrderedField K] (u : V3 K) :
    rodrigues 1 0 u = idM K := by
  unfold rodrigues idM
  simp only [M3.mk.injEq, V3.mk.injEq]
  refine ⟨⟨?_, ?_, ?_⟩, ⟨?_, ?_, ?_⟩, ?_, ?_, ?_⟩ <;> ring

/-- Normalizing a vector of unit dot square is the identity (given that
the square-root model fixes `1`). -/
theorem normalizeV_unit {K : Type} [LinearOrderedField K] {sq : K → K} (hsq1 : sq 1 = 1)
    {v : V3 K} (h : dotV v v = 1) : normalizeV sq v = v := by
  unfold normalizeV lengthV
  rw [h, hsq1]
  simp

/-- A matrix preserves all dot products (equivalently, it is
orthogonal). -/
def DotPreserving {K : Type} [LinearOrderedField K] (R : M3 K) : Prop :=
  ∀ x y : V3 K, dotV (mulMV R x) (mulMV R y) = dotV x y

theorem mulMV_mulMM {K : Type} [LinearOrderedField K] (a b : M3 K) (v : V3 K) :
    mulMV (mulMM a b) v = mulMV a (mulMV b v) := by
  unfold mulMM mulMV
  simp only [V3.mk.injEq]
  refine ⟨?_, ?_, ?_⟩ <;> ring

theorem DotPreserving.mul {K : Type} [LinearOrderedField K] {a b : M3 K}
    (ha : DotPreserving a) (hb : DotPreserving b) : DotPreserving (mulMM a b) := by
  intro x y
  rw [mulMV_mulMM, mulMV_mulMM, ha, hb]

theorem DotPreserving.id {K : Type} [LinearOrderedField K] : DotPreserving (idM K) := by
  intro x y
  rw [mulMV_idM, mulMV_idM]

/-- The axis-angle matrix for a unit axis and a cosine/sine pair on the
unit circle preserves dot products. -/
theorem rodrigues_dotPreserving {K : Type} [LinearOrderedField K] {c s : K} {u : V3 K}
    (hu : dotV u u = 1) (hcs : c * c + s * s = 1) : DotPreserving (rodrigues c s u) := by
  intro x y
  obtain ⟨u1, u2, u3⟩ := u
  obtain ⟨x1, x2, x3⟩ := x
  obtain ⟨y1, y2, y3⟩ := y
  simp only [dotV] at hu ⊢
  simp only [rodrigues, mulMV]
  linear_combination
    (s * s * (x1 * y1 + x2 * y2 + x3 * y3) +
      (1 - c) * (1 - c) * (u1 * x1 + u2 * x2 + u3 * x3) * (u1 * y1 + u2 * y2 + u3 * y3)) * hu +
    ((x1 * y1 + x2 * y2 + x3 * y3) -
      (u1 * x1 + u2 * x2 + u3 * x3) * (u1 * y1 + u2 * y2 + u3 * y3)) * hcs

/-- `glm::rotation` on a unit axis preserves dot products, for any angle,
provided cosine and sine satisfy the circle identity and the square-root
model fixes `1`. -/
theorem rotationM_dotPreserving {K : Type} [LinearOrderedField K] {co si sq : K → K}
    (hsq1 : sq 1 = 1) (hpy : ∀ a, co a * co a + si a * si a = 1) (angle : K)
    {v : V3 K} (hv : dotV v v = 1) : DotPreserving (rotationM co si sq angle v) := by
  unfold rotationM
  rw [normalizeV_unit hsq1 hv]
  exact rodrigues_dotPreserving hv (hpy angle)

/-- The three columns are pairwise orthogonal and unit (for the exact
dot product). -/
def OrthonormalM {K : Type} [LinearOrderedField K] (m : M3 K) : Prop :=
  dotV m.c0 m.c0 = 1 ∧ dotV m.c1 m.c1 = 1 ∧ dotV m.c2 m.c2 = 1 ∧
  dotV m.c0 m.c1 = 0 ∧ dotV m.c0 m.c2 = 0 ∧ dotV m.c1 m.c2 = 0

/-- When the three rotated columns are already pairwise orthonormal, the
Gram-Schmidt pass of `set_rotated_cam_axis` is the identity on them. -/
theorem set_rotated_cam_axis_images {K : Type} [LinearOrderedField K] {sq : K → K}
    (hsq1 : sq 1 = 1) (cd : CameraData K) (axis rot : M3 K)
    (h0 : dotV (mulMV rot axis.c0) (mulMV rot axis.c0) = 1)
    (h1 : dotV (mulMV rot axis.c1) (mulMV rot axis.c1) = 1)
    (h2 : dotV (mulMV rot axis.c2) (mulMV rot axis.c2) = 1)
    (h10 : dotV (mulMV rot axis.c1) (mulMV rot axis.c0) = 0)
    (h20 : dotV (mulMV rot axis.c2) (mulMV rot axis.c0) = 0)
    (h21 : dotV (mulMV rot axis.c2) (mulMV rot axis.c1) = 0) :
    (cd.set_rotated_cam_axis sq axis rot).cam_axis =
      ⟨mulMV rot axis.c0, mulMV rot axis.c1, mulMV rot axis.c2⟩ := by
  unfold CameraData.set_rotated_cam_axis
  simp only
  rw [normalizeV_unit hsq1 h0, h10, smulV_zero, subV_zero, normalizeV_unit hsq1 h1,
    h20, smulV_zero, subV_zero, h21, smulV_zero, subV_zero, normalizeV_unit hsq1 h2]

/-- Rotating an orthonormal frame by a dot-preserving matrix and
re-orthonormalizing yields exactly the rotated columns, again
orthonormal. -/
theorem set_rotated_cam_axis_orthonormal {K : Type} [LinearOrderedField K] {sq : K → K}
    (hsq1 : sq 1 = 1) (cd : CameraData K) {axis rot : M3 K}
    (ha : OrthonormalM axis) (hR : DotPreserving rot) :
    (cd.set_rotated_cam_axis sq axis rot).cam_axis =
      ⟨mulMV rot axis.c0, mulMV rot axis.c1, mulMV rot axis.c2⟩ ∧
    OrthonormalM (cd.set_rotated_cam_axis sq axis rot).cam_axis := by
  obtain ⟨n0, n1, n2, o01, o02, o12⟩ := ha
  have h0 := (hR axis.c0 axis.c0).trans n0
  have h1 := (hR axis.c1 axis.c1).trans n1
  have h2 := (hR axis.c2 axis.c2).trans n2
  have h01 := (hR axis.c0 axis.c1).trans o01
  have h02 := (hR axis.c0 axis.c2).trans o02
  have h12 := (hR axis.c1 axis.c2).trans o12
  have h10 := (dotV_comm _ _).trans h01
  have h20 := (dotV_comm _ _).trans h02
  have h21 := (dotV_comm _ _).trans h12
  have himg := set_rotated_cam_axis_images hsq1 cd axis rot h0 h1 h2 h10 h20 h21
  refine ⟨himg, ?_⟩
  rw [himg]
  exact ⟨h0, h1, h2, h01, h02, h12⟩

/-- A complete Rotate drag: left-button press at one cursor position,
then release at another. -/
def dragRotate {K : Type} [LinearOrderedField K] (co si sq ex : K → K) (cam : Camera K)
    (d : (K × K) × (K × K)) : Camera K :=
  ((cam.update_mouse_button co si sq ex d.1.1 d.1.2 .left true).update_mouse_button
    co si sq ex d.2.1 d.2.2 .left false)

/-- Evaluating one full Rotate drag: the camera data becomes the
Gram-Schmidt-corrected rotation of the current axis, where the composed
rotation is `yrot * xrot` for the drift-derived angles. -/
theorem dragRotate_data {K : Type} [LinearOrderedField K] (co si sq ex : K → K)
    (cam : Camera K) (d : (K × K) × (K × K)) :
    (dragRotate co si sq ex cam d).data =
      cam.data.set_rotated_cam_axis sq cam.data.cam_axis
        (mulMM
          (rotationM co si sq
            (-((d.2.2 - d.1.2) / (cam.data.window_size.2 : K)) * (5 / 2))
            cam.data.cam_axis.c0)
          (rotationM co si sq
            (-((d.2.1 - d.1.1) / (cam.data.window_size.1 : K)) * (5 / 2))
            cam.data.cam_axis.c1)) := rfl

/-- C9: after any sequence of Rotate drags starting from an orthonormal
axis frame the three axis columns remain exactly orthonormal, for
arbitrary drift inputs — in the idealized arithmetic model, where the
square root, cosine and sine satisfy their defining identities (this is
the exact-arithmetic counterpart of the spec's "within float
tolerance"). -/
theorem rotate_drags_orthonormal {K : Type} [LinearOrderedField K] (co si sq ex : K → K)
    (hsq : ∀ a, 0 ≤ a → sq a * sq a = a ∧ 0 ≤ sq a)
    (hpy : ∀ a, co a * co a + si a * si a = 1)
    (drags : List ((K × K) × (K × K))) (cam : Camera K)
    (h : OrthonormalM cam.data.cam_axis) :
    OrthonormalM ((drags.foldl (dragRotate co si sq ex) cam).data.cam_axis) := by
  have hsq1 : sq 1 = 1 := by
    have h1 := hsq 1 zero_le_one
    nlinarith [h1.1, h1.2]
  induction drags generalizing cam with
  | nil => exact h
  | cons d rest ih =>
    rw [List.foldl_cons]
    apply ih
    rw [dragRotate_data]
    refine (set_rotated_cam_axis_orthonormal hsq1 _ h ?_).2
    exact (rotationM_dotPreserving hsq1 hpy _ h.1).mul
      (rotationM_dotPreserving hsq1 hpy _ h.2.1)

/-- Witness for C9 over the reals: one concrete drag from the fresh
camera with real sqrt, cos and sin. -/
theorem rotate_drags_orthonormal_witness :
    OrthonormalM (([(((0 : ℝ), (0 : ℝ)), ((1 : ℝ), (1 : ℝ)))].foldl
      (dragRotate Real.cos Real.sin Real.sqrt Real.exp) (Camera.new ℝ)).data.cam_axis) := by
  apply rotate_drags_orthonormal
  · intro a ha
    exact ⟨Real.mul_self_sqrt ha, Real.sqrt_nonneg a⟩
  · intro a
    have h := Real.sin_sq_add_cos_sq a
    linear_combination h
  · refine ⟨?_, ?_, ?_, ?_, ?_, ?_⟩ <;>
      norm_num [Camera.new, CameraData.new, idM, dotV]

/-- Adding two zero-scaled axis contributions to a point is the
identity (the Move branch under a null drag). -/
theorem pan_null {K : Type} [LinearOrderedField K] (v a b : V3 K) {s t : K}
    (hs : s = 0) (ht : t = 0) :
    addV (addV v (smulV a s)) (smulV b t) = v := by
  subst hs ht
  rw [smulV_zero, addV_zero, smulV_zero, addV_zero]

/-- C8 (amended): a button press followed by a release at the identical
cursor position leaves radius, center and axis unchanged — for every
camera state in Zoom (right button) and Move (middle button) modes, and
in Rotate mode (left button) provided the axis columns are orthonormal.
(For a non-orthonormal axis the Rotate release re-orthonormalizes the
axis; see the counterexample.) The hypotheses pin the external routines
at the only points used: `cos 0 = 1`, `sin 0 = 0`, `sqrt 1 = 1`. -/
theorem null_drag_preserves_camera {K : Type} [LinearOrderedField K]
    (co si sq ex : K → K) (hco : co 0 = 1) (hsi : si 0 = 0) (hsq1 : sq 1 = 1) :
    (∀ (cam : Camera K) (x y : K) (btn : MouseButton),
      btn = MouseButton.right ∨ btn = MouseButton.middle →
      (((cam.update_mouse_button co si sq ex x y btn true).update_mouse_button
          co si sq ex x y btn false).data.radius = cam.data.radius ∧
       ((cam.update_mouse_button co si sq ex x y btn true).update_mouse_button
          co si sq ex x y btn false).data.center = cam.data.center ∧
       ((cam.update_mouse_button co si sq ex x y btn true).update_mouse_button
          co si sq ex x y btn false).data.cam_axis = cam.data.cam_axis)) ∧
    (∀ (cam : Camera K) (x y : K), OrthonormalM cam.data.cam_axis →
      (((cam.update_mouse_button co si sq ex x y .left true).update_mouse_button
          co si sq ex x y .left false).data.radius = cam.data.radius ∧
       ((cam.update_mouse_button co si sq ex x y .left true).update_mouse_button
          co si sq ex x y .left false).data.center = cam.data.center ∧
       ((cam.update_mouse_button co si sq ex x y .left true).update_mouse_button
          co si sq ex x y .left false).data.cam_axis = cam.data.cam_axis)) := by
  constructor
  · intro cam x y btn hbtn
    rcases hbtn with h | h <;> subst h
    · refine ⟨?_, rfl, rfl⟩
      show cam.data.radius + (y - y) / ((cam.data.window_size.2 : K)) * 2 = cam.data.radius
      ring
    · refine ⟨rfl, ?_, rfl⟩
      show addV (addV cam.data.center
          (smulV cam.data.cam_axis.c0 (-((x - x) / (cam.data.window_size.1 : K)) * ex cam.data.radius)))
          (smulV cam.data.cam_axis.c1 ((y - y) / (cam.data.window_size.2 : K) * ex cam.data.radius)) =
        cam.data.center
      exact pan_null _ _ _ (by ring) (by ring)
  · intro cam x y h
    have hrot : ∀ v : V3 K, rotationM co si sq 0 v = idM K := by
      intro v
      unfold rotationM
      rw [hco, hsi]
      exact rodrigues_one_zero _
    have hdata : ((cam.update_mouse_button co si sq ex x y .left true).update_mouse_button
        co si sq ex x y .left false).data =
        cam.data.set_rotated_cam_axis sq cam.data.cam_axis
          (mulMM
            (rotationM co si sq (-((y - y) / (cam.data.window_size.2 : K)) * (5 / 2))
              cam.data.cam_axis.c0)
            (rotationM co si sq (-((x - x) / (cam.data.window_size.1 : K)) * (5 / 2))
              cam.data.cam_axis.c1)) := rfl
    have hang1 : -((y - y) / (cam.data.window_size.2 : K)) * (5 / 2) = 0 := by ring
    have hang2 : -((x - x) / (cam.data.window_size.1 : K)) * (5 / 2) = 0 := by ring
    rw [hdata, hang1, hang2, hrot, hrot, mulMM_idM]
    have himg := (set_rotated_cam_axis_orthonormal hsq1 cam.data h DotPreserving.id).1
    refine ⟨rfl, rfl, ?_⟩
    rw [himg, mulMV_idM, mulMV_idM, mulMV_idM]

/-- Witness for C8 over the rationals, with constant stand-ins for the
external routines, at the fresh camera and cursor `(5,7)`. -/
theorem null_drag_preserves_camera_witness :
    ((((Camera.new ℚ).update_mouse_button (fun _ => (1 : ℚ)) (fun _ => (0 : ℚ))
          (fun _ => (1 : ℚ)) id 5 7 .right true).update_mouse_button
          (fun _ => (1 : ℚ)) (fun _ => (0 : ℚ)) (fun _ => (1 : ℚ)) id
          5 7 .right false).data.radius = (Camera.new ℚ).data.radius ∧
      (((Camera.new ℚ).update_mouse_button (fun _ => (1 : ℚ)) (fun _ => (0 : ℚ))
          (fun _ => (1 : ℚ)) id 5 7 .right true).update_mouse_button
          (fun _ => (1 : ℚ)) (fun _ => (0 : ℚ)) (fun _ => (1 : ℚ)) id
          5 7 .right false).data.center = (Camera.new ℚ).data.center ∧
      (((Camera.new ℚ).update_mouse_button (fun _ => (1 : ℚ)) (fun _ => (0 : ℚ))
          (fun _ => (1 : ℚ)) id 5 7 .right true).update_mouse_button
          (fun _ => (1 : ℚ)) (fun _ => (0 : ℚ)) (fun _ => (1 : ℚ)) id
          5 7 .right false).data.cam_axis = (Camera.new ℚ).data.cam_axis) ∧
    ((((Camera.new ℚ).update_mouse_button (fun _ => (1 : ℚ)) (fun _ => (0 : ℚ))
          (fun _ => (1 : ℚ)) id 5 7 .left true).update_mouse_button
          (fun _ => (1 : ℚ)) (fun _ => (0 : ℚ)) (fun _ => (1 : ℚ)) id
          5 7 .left false).data.radius = (Camera.new ℚ).data.radius ∧
      (((Camera.new ℚ).update_mouse_button (fun _ => (1 : ℚ)) (fun _ => (0 : ℚ))
          (fun _ => (1 : ℚ)) id 5 7 .left true).update_mouse_button
          (fun _ => (1 : ℚ)) (fun _ => (0 : ℚ)) (fun _ => (1 : ℚ)) id
          5 7 .left false).data.center = (Camera.new ℚ).data.center ∧
      (((Camera.new ℚ).update_mouse_button (fun _ => (1 : ℚ)) (fun _ => (0 : ℚ))
          (fun _ => (1 : ℚ)) id 5 7 .left true).update_mouse_button
          (fun _ => (1 : ℚ)) (fun _ => (0 : ℚ)) (fun _ => (1 : ℚ)) id
          5 7 .left false).data.cam_axis = (Camera.new ℚ).data.cam_axis) :=
  ⟨(null_drag_preserves_camera (fun _ => (1 : ℚ)) (fun _ => (0 : ℚ)) (fun _ => (1 : ℚ))
      id rfl rfl rfl).1 (Camera.new ℚ) 5 7 .right (Or.inl rfl),
   (null_drag_preserves_camera (fun _ => (1 : ℚ)) (fun _ => (0 : ℚ)) (fun _ => (1 : ℚ))
      id rfl rfl rfl).2 (Camera.new ℚ) 5 7
      (by norm_num [OrthonormalM, Camera.new, CameraData.new, idM, dotV])⟩

/-- A camera whose axis first column is not unit (reachable through
`set_from_string`, which accepts arbitrary axis entries). -/
def camShear : Camera ℚ :=
  { data := { CameraData.new ℚ with cam_axis := ⟨⟨2, 0, 0⟩, ⟨0, 1, 0⟩, ⟨0, 0, 1⟩⟩ }
    mode := .nothing
    save_cursor := (0, 0)
    saved_data := CameraData.new ℚ }

/-- Counterexample to C8 as stated ("for every camera state and every
interaction mode"): a left-button press-and-release at the identical
cursor position on a camera with a non-unit axis column changes the
axis — the Rotate release re-orthonormalizes it (the square-root
stand-in agrees with `f32` sqrt at the two points used, `1` and `4`). -/
theorem null_drag_rotate_counterexample :
    ((camShear.update_mouse_button (fun _ => 1) (fun _ => 0)
        (fun q => if q = (4 : ℚ) then 2 else 1) id 0 0 .left true).update_mouse_button
        (fun _ => 1) (fun _ => 0) (fun q => if q = (4 : ℚ) then 2 else 1) id
        0 0 .left false).data.cam_axis ≠ camShear.data.cam_axis := by
  intro hEq
  have h1 := congrArg (fun m : M3 ℚ => m.c0.x) hEq
  norm_num [camShear, Camera.update_mouse_button, Camera.modify,
    CameraData.set_rotated_cam_axis, rotationM, rodrigues, normalizeV, lengthV, dotV,
    mulMM, mulMV, subV, smulV, CameraData.new, idM] at h1

/-! ## Claim C7: the Rotate branch against the spec text -/

/-- Modelled from the spec (§4.3 Rotate, re-orthonormalization): apply a
rotation to every column, then normalize the right column, make the up
column orthogonal to right and normalize, and make the view-direction
column orthogonal to both (successively) and normalize. -/
def specOrthonormalize {K : Type} [LinearOrderedField K] (sq : K → K)
    (w0 w1 w2 : V3 K) : M3 K :=
  let r := normalizeV sq w0
  let u1 := subV w1 (smulV r (dotV w1 r))
  let u := normalizeV sq u1
  let d1 := subV w2 (smulV r (dotV w2 r))
  let d2 := subV d1 (smulV u (dotV d1 u))
  let d := normalizeV sq d2
  ⟨r, u, d⟩

/-- Modelled from the claim as stated: rotation by `-drift_x*2.5` about
the up column and by `-drift_y*2.5` about the right column, composed
with the up-rotation applied AFTER the right-rotation (`xrot * yrot`),
applied to every column of the saved frame, then re-orthonormalized. -/
def specRotateClaimed {K : Type} [LinearOrderedField K] (co si sq : K → K)
    (axis : M3 K) (dx dy : K) : M3 K :=
  let xrot := rotationM co si sq (-dx * (5 / 2)) axis.c1
  let yrot := rotationM co si sq (-dy * (5 / 2)) axis.c0
  let rot := mulMM xrot yrot
  specOrthonormalize sq (mulMV rot axis.c0) (mulMV rot axis.c1) (mulMV rot axis.c2)

/-- The amended composition order, matching the code: the rotation about
the right column is applied AFTER the rotation about the up column
(`yrot * xrot`). -/
def specRotateCorrected {K : Type} [LinearOrderedField K] (co si sq : K → K)
    (axis : M3 K) (dx dy : K) : M3 K :=
  let xrot := rotationM co si sq (-dx * (5 / 2)) axis.c1
  let yrot := rotationM co si sq (-dy * (5 / 2)) axis.c0
  let rot := mulMM yrot xrot
  specOrthonormalize sq (mulMV rot axis.c0) (mulMV rot axis.c1) (mulMV rot axis.c2)

/-- C7 (amended): in Rotate mode, a pointer move builds the two
drift-angle rotations about the saved up and right columns, composes
them with the rotation about the RIGHT column applied after the one
about the UP column (`yrot * xrot` — the opposite order from the claim's
wording), applies the composition to every column of the saved frame
and re-orthonormalizes by Gram-Schmidt exactly as the spec describes. -/
theorem rotate_branch_matches_spec {K : Type} [LinearOrderedField K]
    (co si sq ex : K → K) (cam : Camera K) (hmode : cam.mode = Mode.rotate) (x y : K) :
    (cam.modify co si sq ex x y).data.cam_axis =
      specRotateCorrected co si sq cam.saved_data.cam_axis
        ((x - cam.save_cursor.1) / (cam.data.window_size.1 : K))
        ((y - cam.save_cursor.2) / (cam.data.window_size.2 : K)) := by
  unfold Camera.modify
  rw [hmode]
  rfl

/-- Witness for C7 (amended) at a concrete camera in Rotate mode. -/
theorem rotate_branch_matches_spec_witness :
    (((Camera.new ℚ).update_mouse_button (fun _ => (1 : ℚ)) (fun _ => (0 : ℚ))
        (fun _ => (1 : ℚ)) id 0 0 .left true).modify (fun _ => (1 : ℚ))
        (fun _ => (0 : ℚ)) (fun _ => (1 : ℚ)) id 1 1).data.cam_axis =
      specRotateCorrected (fun _ => (1 : ℚ)) (fun _ => (0 : ℚ)) (fun _ => (1 : ℚ))
        (CameraData.new ℚ).cam_axis
        ((1 - 0) / ((100 : ℕ) : ℚ)) ((1 - 0) / ((100 : ℕ) : ℚ)) :=
  rotate_branch_matches_spec (fun _ => (1 : ℚ)) (fun _ => (0 : ℚ)) (fun _ => (1 : ℚ))
    id _ rfl 1 1

/-- The camera used for the C7 counterexample: Rotate mode, saved
identity frame, unit window so the drifts are the cursor deltas. -/
def camRot : Camera ℚ :=
  { data := { CameraData.new ℚ with window_size := (1, 1) }
    mode := .rotate
    save_cursor := (0, 0)
    saved_data := CameraData.new ℚ }

/-- Counterexample to C7 as stated: with cosine `3/5` and sine `4/5` at
the drift angle `-2.5` (a genuine point on the unit circle; the
square-root stand-in agrees with sqrt at the only point used, `1`), the
Rotate branch and the spec's stated composition order produce different
axes — the code computes `yrot * xrot`, the claim's `xrot * yrot`
differs already in the first component of the second column. -/
theorem rotate_composition_order_counterexample :
    (camRot.modify (fun a => if a = -(5 / 2 : ℚ) then 3 / 5 else 1)
        (fun a => if a = -(5 / 2 : ℚ) then 4 / 5 else 0)
        (fun q => if q = (1 : ℚ) then 1 else 0) id 1 1).data.cam_axis ≠
      specRotateClaimed (fun a => if a = -(5 / 2 : ℚ) then 3 / 5 else 1)
        (fun a => if a = -(5 / 2 : ℚ) then 4 / 5 else 0)
        (fun q => if q = (1 : ℚ) then 1 else 0)
        camRot.saved_data.cam_axis 1 1 := by
  intro hEq
  have h1 := congrArg (fun m : M3 ℚ => m.c1.x) hEq
  norm_num [camRot, Camera.modify, CameraData.set_rotated_cam_axis, specRotateClaimed,
    specOrthonormalize, rotationM, rodrigues, normalizeV, lengthV, dotV, mulMM, mulMV,
    subV, smulV, CameraData.new, idM] at h1

/-! ## Claim C10: `f32` special-value model for the empty-bbox sentinel

The claim hinges on `f32` overflow and infinity arithmetic, so the
generic field model does not apply; this small model is exact rational
arithmetic extended with the IEEE special values. Finite results are
exact and saturate to the infinities beyond `f32::MAX` (rounding of
representable-range results is not modelled; every operation on the
claim's evaluation path is either exact or overflows). The finite
branches of sqrt and ln take their values from explicit parameters and
are never reached on this path. -/

/-- An `f32` value: finite rational, infinity, or NaN. -/
inductive F32x where
  | fin (q : ℚ)
  | pinf
  | ninf
  | nan
deriving DecidableEq, Repr

/-- `f32::MAX` as a rational; `f32::MIN` is its negation. -/
def f32max : ℚ := 2 ^ 128 - 2 ^ 104

/-- IEEE negation. -/
def F32x.neg : F32x → F32x
  | .fin q => .fin (-q)
  | .pinf => .ninf
  | .ninf => .pinf
  | .nan => .nan

/-- IEEE addition (exact within range, saturating past `f32::MAX`). -/
def F32x.add : F32x → F32x → F32x
  | .nan, _ => .nan
  | _, .nan => .nan
  | .pinf, .ninf => .nan
  | .ninf, .pinf => .nan
  | .pinf, _ => .pinf
  | _, .pinf => .pinf
  | .ninf, _ => .ninf
  | _, .ninf => .ninf
  | .fin a, .fin b =>
    if f32max < a + b then .pinf
    else if a + b < -f32max then .ninf
    else .fin (a + b)

/-- IEEE subtraction: addition of the negation. -/
def F32x.sub (a b : F32x) : F32x := a.add b.neg

/-- IEEE multiplication. -/
def F32x.mul : F32x → F32x → F32x
  | .nan, _ => .nan
  | _, .nan => .nan
  | .pinf, .pinf => .pinf
  | .pinf, .ninf => .ninf
  | .ninf, .pinf => .ninf
  | .ninf, .ninf => .pinf
  | .pinf, .fin b => if 0 < b then .pinf else if b < 0 then .ninf else .nan
  | .fin a, .pinf => if 0 < a then .pinf else if a < 0 then .ninf else .nan
  | .ninf, .fin b => if 0 < b then .ninf else if b < 0 then .pinf else .nan
  | .fin a, .ninf => if 0 < a then .ninf else if a < 0 then .pinf else .nan
  | .fin a, .fin b =>
    if f32max < a * b then .pinf
    else if a * b < -f32max then .ninf
    else .fin (a * b)

/-- IEEE division (the cases this development evaluates). -/
def F32x.div : F32x → F32x → F32x
  | .nan, _ => .nan
  | _, .nan => .nan
  | .pinf, .pinf => .nan
  | .pinf, .ninf => .nan
  | .ninf, .pinf => .nan
  | .ninf, .ninf => .nan
  | .pinf, .fin b => if b < 0 then .ninf else .pinf
  | .ninf, .fin b => if b < 0 then .pinf else .ninf
  | .fin _, .pinf => .fin 0
  | .fin _, .ninf => .fin 0
  | .fin a, .fin b =>
    if b = 0 then (if a = 0 then .nan else if 0 < a then .pinf else .ninf)
    else if f32max < a / b then .pinf
    else if a / b < -f32max then .ninf
    else .fin (a / b)

/-- IEEE `<=` (false whenever NaN is involved). -/
def F32x.le : F32x → F32x → Bool
  | .nan, _ => false
  | _, .nan => false
  | .ninf, _ => true
  | _, .pinf => true
  | .pinf, _ => false
  | .fin _, .ninf => false
  | .fin a, .fin b => decide (a ≤ b)

/-- IEEE square root; the value on finite positive arguments comes from
the parameter `sqfin` (never evaluated on the claim's path). -/
def F32x.sqrtF (sqfin : ℚ → ℚ) : F32x → F32x
  | .nan => .nan
  | .pinf => .pinf
  | .ninf => .nan
  | .fin q => if q < 0 then .nan else .fin (sqfin q)

/-- IEEE natural logarithm; the value on finite positive arguments comes
from the parameter `lnfin` (never evaluated on the claim's path). -/
def F32x.lnF (lnfin : ℚ → ℚ) : F32x → F32x
  | .nan => .nan
  | .pinf => .pinf
  | .ninf => .nan
  | .fin q => if q < 0 then .nan else if q = 0 then .ninf else .fin (lnfin q)

/-- `BBox::new` on the `f32` model: the empty sentinel with
min = `f32::MAX` and max = `f32::MIN` per axis. -/
def bboxF_new : BBox F32x :=
  { min := ⟨.fin f32max, .fin f32max, .fin f32max⟩
    max := ⟨.fin (-f32max), .fin (-f32max), .fin (-f32max)⟩ }

/-- `BBox::get_center` on the `f32` model. -/
def getCenterF (b : BBox F32x) : V3 F32x :=
  ⟨(b.min.x.add b.max.x).div (.fin 2),
   (b.min.y.add b.max.y).div (.fin 2),
   (b.min.z.add b.max.z).div (.fin 2)⟩

/-- `BBox::get_size` on the `f32` model. -/
def getSizeF (b : BBox F32x) : V3 F32x :=
  ⟨b.max.x.sub b.min.x, b.max.y.sub b.min.y, b.max.z.sub b.min.z⟩

/-- Dot product on the `f32` model. -/
def dotF (a b : V3 F32x) : F32x :=
  ((a.x.mul b.x).add (a.y.mul b.y)).add (a.z.mul b.z)

/-- `glm::length` on the `f32` model. -/
def lengthF (sqfin : ℚ → ℚ) (v : V3 F32x) : F32x :=
  (dotF v v).sqrtF sqfin

/-- The camera fields `Camera::focus` touches, on the `f32` model. -/
structure CameraF where
  radius : F32x
  center : V3 F32x
  scene_center : V3 F32x
  scene_radius : F32x
deriving DecidableEq, Repr

/-- `CameraData::new`, restricted to the fields of `CameraF`. -/
def cameraF_new : CameraF :=
  { radius := .fin 0
    center := ⟨.fin 0, .fin 0, .fin 0⟩
    scene_center := ⟨.fin 0, .fin 0, .fin 0⟩
    scene_radius := .fin 10 }

/-- `CameraData::set_scene` on the `f32` model (`radius <= 0.0` bails). -/
def set_sceneF (cd : CameraF) (center : V3 F32x) (radius : F32x) :
    Except String CameraF :=
  if radius.le (.fin 0) then .error "Scene radius must be positive!!!"
  else .ok { cd with scene_center := center, scene_radius := radius }

/-- `Camera::focus` on the `f32` model, with the source's mutation
order. -/
def focusF (sqfin lnfin : ℚ → ℚ) (c : CameraF) (volume : BBox F32x) :
    Except String Unit × CameraF :=
  let center := getCenterF volume
  let size := getSizeF volume
  let box_size := lengthF sqfin size
  let c := { c with radius := (box_size.mul (.fin (3 / 2))).lnF lnfin }
  let c := { c with center := center }
  let scene_center := getCenterF volume
  let scene_radius := (lengthF sqfin (getSizeF volume)).div (.fin 2)
  match set_sceneF c scene_center scene_radius with
  | .error e => (.error e, c)
  | .ok d => (.ok (), d)

/-- C10: focusing on a freshly created, never-extended bounding volume
does NOT return an error: the size components overflow to `-inf`, the
derived scene radius evaluates to `+inf`, which passes the
strict-positivity check (`+inf <= 0` is false), and the camera is
silently left with radius `+inf` and scene radius `+inf`. -/
theorem focus_empty_bbox_no_error (sqfin lnfin : ℚ → ℚ) :
    (focusF sqfin lnfin cameraF_new bboxF_new).1 = .ok () ∧
    (focusF sqfin lnfin cameraF_new bboxF_new).2.radius = .pinf ∧
    (focusF sqfin lnfin cameraF_new bboxF_new).2.scene_radius = .pinf := by
  have hsub : (F32x.fin (-f32max)).sub (.fin f32max) = .ninf := by
    unfold F32x.sub F32x.neg F32x.add
    norm_num [f32max]
  have hsize : getSizeF bboxF_new = ⟨.ninf, .ninf, .ninf⟩ := by
    unfold getSizeF bboxF_new
    rw [hsub]
  have hlen : lengthF sqfin (getSizeF bboxF_new) = .pinf := by
    rw [hsize]
    unfold lengthF dotF F32x.mul F32x.add F32x.sqrtF
    rfl
  have hcen : getCenterF bboxF_new = ⟨.fin 0, .fin 0, .fin 0⟩ := by
    unfold getCenterF bboxF_new
    norm_num [F32x.add, F32x.div, f32max]
  simp only [focusF, hlen, hcen]
  unfold set_sceneF F32x.div F32x.mul F32x.lnF F32x.le
  norm_num

end CadViewer
